import Mathlib

/-!
# Verification of the Gemini function-calling orchestrator

Shallow embedding of `gemini_functions.py` from the GeminiAPIFunctionCalling
repository.  The module has three layers:

* two tool handlers (`get_cameras_by_zipcode`, `search_cameras_by_street`)
  wrapping a remote HTTP camera API;
* a registry dispatcher `execute_function_call` mapping a model-produced
  tool invocation to a handler via the `available_functions` dict and
  Python keyword expansion;
* the orchestration loop `chat_with_gemini`, a `while True` loop that calls
  the LLM provider, executes requested tools, feeds results back into the
  conversation, and converts provider exceptions into terminal error dicts.

Modelling choices:

* Camera records are opaque JSON values fetched from the remote API; JSON
  values are modelled by `JVal`.  Python dicts are association lists in
  insertion order.
* The two external effects are oracles supplied per loop turn: the provider
  response (`ProviderResponse`: a model content, a `ClientError`, or any
  other exception) and the outcome of the single outbound HTTP GET a tool
  execution performs (`HttpOutcome`).
* Python exceptions are `Except` values.  Inside a tool handler every
  transport or HTTP failure is a `requests.RequestException`, caught there;
  the only exception that can escape `execute_function_call` is the
  `TypeError` raised by the keyword expansion `function_to_call(**args)`
  when the argument keys do not match the handler's parameter names
  (Python's exact TypeError wording is abstracted by `kwargsErrorMsg`).
* `print` side effects are modelled as `TraceEvent` values accumulated in
  the loop state; they carry no data back into the computation.
* The source loop is `while True` with no turn bound.  It is embedded with
  explicit fuel: `chat_with_gemini env msg verbose fuel` returns `none`
  when the loop has not reached a `return` within `fuel` iterations, and
  `some result` when it has.
-/

namespace GeminiFunctions

/-- JSON-like values: the payloads exchanged with the remote camera API and
echoed in tool results.  Camera records are opaque `JVal`s. -/
inductive JVal : Type where
  | jstr : String → JVal
  | jbool : Bool → JVal
  | jnat : Nat → JVal
  | jarr : List JVal → JVal

/-- A Python dict with `JVal` values, in insertion order. -/
abbrev Payload := List (String × JVal)

/-- Argument mapping of a tool invocation (`function_call.args`). -/
abbrev Args := List (String × JVal)

/-- A tool invocation produced by the model: name plus argument mapping.
Not guaranteed valid. -/
structure FunctionCall where
  name : String
  args : Args

/-- Outcome of the single outbound HTTP GET a tool handler performs.
`success cameras` is a 2xx response whose JSON body is the camera array;
`requestError msg` is any `requests.RequestException` (timeout, network
error, or the `HTTPError` from `raise_for_status` on a non-2xx status). -/
inductive HttpOutcome : Type where
  | success : List JVal → HttpOutcome
  | requestError : String → HttpOutcome

/-- `get_cameras_by_zipcode` from the source: one GET to
`/cameras/zipcode/(zipcode)`, success and failure dicts built exactly as in
the Python code (key order included).  The echoed `zipcode` is whatever
value the model supplied. -/
def get_cameras_by_zipcode (http : HttpOutcome) (zipcode : JVal) : Payload :=
  match http with
  | HttpOutcome.success cameras =>
      [("success", JVal.jbool true),
       ("zipcode", zipcode),
       ("count", JVal.jnat cameras.length),
       ("cameras", JVal.jarr cameras)]
  | HttpOutcome.requestError e =>
      [("success", JVal.jbool false),
       ("error", JVal.jstr e),
       ("zipcode", zipcode)]

/-- `search_cameras_by_street` from the source: one GET to `/cameras/search`
with `street` and `zipcode` query parameters. -/
def search_cameras_by_street (http : HttpOutcome) (street : JVal) (zipcode : JVal) : Payload :=
  match http with
  | HttpOutcome.success cameras =>
      [("success", JVal.jbool true),
       ("street", street),
       ("zipcode", zipcode),
       ("count", JVal.jnat cameras.length),
       ("cameras", JVal.jarr cameras)]
  | HttpOutcome.requestError e =>
      [("success", JVal.jbool false),
       ("error", JVal.jstr e),
       ("street", street),
       ("zipcode", zipcode)]

/-- The two registered handlers (the values of the `available_functions`
dict). -/
inductive ToolHandler : Type where
  | getCamerasByZipcode : ToolHandler
  | searchCamerasByStreet : ToolHandler

/-- The `available_functions` dict mapping tool names to handlers. -/
def available_functions : List (String × ToolHandler) :=
  [("get_cameras_by_zipcode", ToolHandler.getCamerasByZipcode),
   ("search_cameras_by_street", ToolHandler.searchCamerasByStreet)]

/-- The Python parameter names of a handler's signature. -/
def handlerParams : ToolHandler → List String
  | ToolHandler.getCamerasByZipcode => ["zipcode"]
  | ToolHandler.searchCamerasByStreet => ["street", "zipcode"]

/-- Python keyword expansion `f(**args)` into a signature with parameter
list `params` succeeds exactly when every parameter name is bound in `args`
and `args` has no key outside `params` (a missing required parameter or an
unexpected keyword raises `TypeError`).  `args` is a dict, so keys are
distinct. -/
def kwargsMatch (params : List String) (args : Args) : Bool :=
  params.all (fun p => args.any (fun kv => kv.1 == p)) &&
    args.all (fun kv => params.contains kv.1)

/-- Value bound to `k` in `args`; the default is never reached when the
keyword expansion succeeded. -/
def argVal (args : Args) (k : String) : JVal :=
  (args.lookup k).getD (JVal.jstr "")

/-- Apply a resolved handler to the keyword arguments (after a successful
keyword expansion). -/
def applyHandler (f : ToolHandler) (http : HttpOutcome) (args : Args) : Payload :=
  match f with
  | ToolHandler.getCamerasByZipcode =>
      get_cameras_by_zipcode http (argVal args "zipcode")
  | ToolHandler.searchCamerasByStreet =>
      search_cameras_by_street http (argVal args "street") (argVal args "zipcode")

/-- The one exception that can escape the registry: the `TypeError` Python
raises from `function_to_call(**function_args)` when the argument keys do
not fit the handler's signature.  The exact Python message is abstracted. -/
inductive PyExn : Type where
  | typeError : String → PyExn

/-- The message carried by an exception (`str(e)` in the source). -/
def exnMsg : PyExn → String
  | PyExn.typeError m => m

/-- Abstraction of Python's TypeError text for a failed keyword expansion. -/
def kwargsErrorMsg (fname : String) : String :=
  fname ++ "() received an unexpected or missing keyword argument"

/-- The `print` side effects of the source, kept as data so that verbose
tracing can be shown observational. -/
inductive TraceEvent : Type where
  | userMsg : String → TraceEvent
  | functionCallDetected : String → Args → TraceEvent
  | apiResponse : Payload → TraceEvent
  | geminiReply : String → TraceEvent
  | errorMsg : String → TraceEvent

/-- `execute_function_call` from the source.  Looks the name up in
`available_functions`; an unregistered name yields the not-found payload
(no exception); otherwise the handler is invoked by keyword expansion,
which raises `TypeError` when the argument keys do not match the
signature.  The second component collects the verbose prints. -/
def execute_function_call (http : HttpOutcome) (function_call : FunctionCall)
    (verbose : Bool) : Except PyExn Payload × List TraceEvent :=
  let t0 : List TraceEvent :=
    if verbose then [TraceEvent.functionCallDetected function_call.name function_call.args]
    else []
  match available_functions.lookup function_call.name with
  | none =>
      (Except.ok [("error", JVal.jstr ("Function " ++ function_call.name ++ " not found"))], t0)
  | some f =>
      if kwargsMatch (handlerParams f) function_call.args then
        let result := applyHandler f http function_call.args
        (Except.ok result,
         t0 ++ (if verbose then [TraceEvent.apiResponse result] else []))
      else
        (Except.error (PyExn.typeError (kwargsErrorMsg function_call.name)), t0)

/-- A part of a conversation turn: text, a tool-invocation request, or a
tool-invocation result (`types.Part`). -/
inductive Part : Type where
  | text : String → Part
  | functionCall : FunctionCall → Part
  | functionResponse : String → Payload → Part

/-- A conversation turn (`types.Content`): role plus parts. -/
structure Content where
  role : String
  parts : List Part

/-- The `response.text` accessor of the provider SDK: concatenation of the
text parts of the first candidate's content. -/
def responseText (c : Content) : String :=
  String.join (c.parts.filterMap (fun p =>
    match p with
    | Part.text t => some t
    | _ => none))

/-- One provider call outcome: a response content (the first candidate's
content, of which the loop inspects only the first part), a
`genai.errors.ClientError`, or any other exception raised by the call. -/
inductive ProviderResponse : Type where
  | ok : Content → ProviderResponse
  | clientError : String → ProviderResponse
  | otherError : String → ProviderResponse

/-- The environment of one chat request: for each loop turn `i`, what the
provider call returns and how the (at most one) outbound tool HTTP GET of
that turn would go. -/
abbrev ChatEnv := Nat → ProviderResponse × HttpOutcome

/-- Values of the result dict returned by `chat_with_gemini`: strings, or
the tracked list of function calls made. -/
inductive RVal : Type where
  | rstr : String → RVal
  | rcalls : List FunctionCall → RVal

/-- The dict `chat_with_gemini` returns. -/
abbrev ResultDict := List (String × RVal)

/-- Successful final answer dict. -/
def responseDict (text : String) (calls : List FunctionCall) : ResultDict :=
  [("response", RVal.rstr text),
   ("function_calls", RVal.rcalls calls)]

/-- The fixed user-friendly rate-limit message from the source. -/
def rate_limit_message : String :=
  "⚠️ Rate limit exceeded! You've hit the Gemini API quota. " ++
  "The free tier allows 20 requests per day for gemini-2.5-flash. " ++
  "Please wait a few minutes and try again, or check your usage at: " ++
  "https://ai.dev/usage?tab=rate-limit"

/-- Terminal dict for a rate-limited `ClientError`. -/
def rateLimitDict (errorMessage : String) (calls : List FunctionCall) : ResultDict :=
  [("error", RVal.rstr rate_limit_message),
   ("error_details", RVal.rstr errorMessage),
   ("function_calls", RVal.rcalls calls)]

/-- Terminal dict for any other `ClientError`. -/
def apiErrorDict (errorMessage : String) (calls : List FunctionCall) : ResultDict :=
  [("error", RVal.rstr ("Gemini API Error: " ++ errorMessage)),
   ("function_calls", RVal.rcalls calls)]

/-- Terminal dict built by the catch-all `except Exception` handler. -/
def unexpectedDict (errorMessage : String) (calls : List FunctionCall) : ResultDict :=
  [("error", RVal.rstr ("Unexpected error: " ++ errorMessage)),
   ("function_calls", RVal.rcalls calls)]

/-- `True` when `pat` occurs as a contiguous sublist of `hay` (Python's
`in` on strings, over the character list). -/
def containsSubList (hay pat : List Char) : Bool :=
  hay.tails.any (fun t => pat.isPrefixOf t)

/-- `True` when `pat` occurs as a substring of `hay` (Python's `in` on
strings). -/
def strContainsSub (hay pat : String) : Bool :=
  containsSubList hay.toList pat.toList

/-- ASCII lowercasing of one character (the fragment of Python's
`str.lower` relevant to the marker `quota`). -/
def asciiLower (c : Char) : Char :=
  if c.toNat ≥ 65 && c.toNat ≤ 90 then Char.ofNat (c.toNat + 32) else c

/-- The source's rate-limit test on the text of a `ClientError`: the
markers `429` and `RESOURCE_EXHAUSTED` verbatim, and `quota` in the
lowercased message. -/
def isRateLimitError (errorMessage : String) : Bool :=
  strContainsSub errorMessage "429" ||
    strContainsSub errorMessage "RESOURCE_EXHAUSTED" ||
    containsSubList (errorMessage.toList.map asciiLower) "quota".toList

/-- The tool-result turn appended after executing a function call: role
`user`, a single `function_response` part carrying the tool name and the
result payload. -/
def mkFunctionResponseContent (name : String) (payload : Payload) : Content :=
  { role := "user", parts := [Part.functionResponse name payload] }

/-- The initial turn holding the user's message. -/
def mkUserContent (user_message : String) : Content :=
  { role := "user", parts := [Part.text user_message] }

/-- The control position of the loop: either still inside `while True`
(about to issue the provider call number `i`, with the function calls
tracked so far and the conversation built so far), or returned with a
result dict. -/
inductive Phase : Type where
  | running : Nat → List FunctionCall → List Content → Phase
  | done : ResultDict → Phase

/-- Loop state: control position plus the verbose prints emitted so far. -/
structure LoopState where
  phase : Phase
  trace : List TraceEvent

/-- State at the top of `chat_with_gemini`, after the optional USER print
and before the first provider call. -/
def initState (user_message : String) (verbose : Bool) : LoopState :=
  { phase := Phase.running 0 [] [mkUserContent user_message],
    trace := if verbose then [TraceEvent.userMsg user_message] else [] }

/-- One iteration of the `while True` body of `chat_with_gemini`, with the
`try`/`except` conversion of exceptions into terminal dicts.  A turn whose
provider response has a function call in its first part appends the call to
the tracked list, executes it, appends the model turn and the tool-result
turn to the conversation, and continues; any other response is final text;
provider exceptions and an escaping `TypeError` from the registry become
terminal error dicts. -/
def chatStep (env : ChatEnv) (verbose : Bool) : LoopState → LoopState
  | { phase := Phase.done r, trace := tr } => { phase := Phase.done r, trace := tr }
  | { phase := Phase.running i calls messages, trace := tr } =>
    match env i with
    | (ProviderResponse.clientError msg, _) =>
        if isRateLimitError msg then
          { phase := Phase.done (rateLimitDict msg calls),
            trace := tr ++ (if verbose then
              [TraceEvent.errorMsg rate_limit_message, TraceEvent.errorMsg msg] else []) }
        else
          { phase := Phase.done (apiErrorDict msg calls),
            trace := tr ++ (if verbose then
              [TraceEvent.errorMsg ("Gemini API Error: " ++ msg)] else []) }
    | (ProviderResponse.otherError msg, _) =>
        { phase := Phase.done (unexpectedDict msg calls),
          trace := tr ++ (if verbose then
            [TraceEvent.errorMsg ("Unexpected error: " ++ msg)] else []) }
    | (ProviderResponse.ok content, http) =>
        match content.parts.head? with
        | none =>
            -- response.candidates[0].content.parts[0] raises IndexError,
            -- caught by the catch-all handler
            { phase := Phase.done (unexpectedDict "list index out of range" calls),
              trace := tr ++ (if verbose then
                [TraceEvent.errorMsg ("Unexpected error: list index out of range")] else []) }
        | some (Part.functionCall fc) =>
            match execute_function_call http fc verbose with
            | (Except.error e, t2) =>
                { phase := Phase.done (unexpectedDict (exnMsg e) (calls ++ [fc])),
                  trace := tr ++ t2 ++ (if verbose then
                    [TraceEvent.errorMsg ("Unexpected error: " ++ exnMsg e)] else []) }
            | (Except.ok payload, t2) =>
                { phase := Phase.running (i + 1) (calls ++ [fc])
                    (messages ++ [content, mkFunctionResponseContent fc.name payload]),
                  trace := tr ++ t2 }
        | some _ =>
            { phase := Phase.done (responseDict (responseText content) calls),
              trace := tr ++ (if verbose then
                [TraceEvent.geminiReply (responseText content)] else []) }

/-- `chat_with_gemini`, run for at most `fuel` iterations of the loop body:
`some result` when the source function has returned within `fuel` turns,
`none` when the `while True` loop is still running after `fuel` turns (the
source has no turn bound of its own). -/
def chat_with_gemini (env : ChatEnv) (user_message : String) (verbose : Bool)
    (fuel : Nat) : Option ResultDict :=
  match ((chatStep env verbose)^[fuel] (initState user_message verbose)).phase with
  | Phase.done r => some r
  | Phase.running _ _ _ => none

/-- `true` when loop turn `k` keeps the loop running: the provider returns
a content whose first part is a function call and executing that call
returns a payload (rather than raising). -/
def continuesAt (env : ChatEnv) (verbose : Bool) (k : Nat) : Bool :=
  match env k with
  | (ProviderResponse.ok content, http) =>
      match content.parts.head? with
      | some (Part.functionCall fc) =>
          match (execute_function_call http fc verbose).1 with
          | Except.ok _ => true
          | Except.error _ => false
      | _ => false
  | _ => false

/-- The four dict shapes `chat_with_gemini` can return. -/
def terminalShape (r : ResultDict) : Prop :=
  (∃ t cs, r = responseDict t cs) ∨
  (∃ m cs, r = rateLimitDict m cs) ∨
  (∃ m cs, r = apiErrorDict m cs) ∨
  (∃ m cs, r = unexpectedDict m cs)

/-- A final-answer mapping: a response text and the tool-invocation list,
and no error entry. -/
def finalAnswerShape (r : ResultDict) : Prop :=
  ∃ t cs, r.lookup "response" = some (RVal.rstr t) ∧
    r.lookup "function_calls" = some (RVal.rcalls cs) ∧
    r.lookup "error" = none

/-- A terminal-error mapping: an error message and the tool-invocation
list, and no response entry. -/
def terminalErrorShape (r : ResultDict) : Prop :=
  ∃ m cs, r.lookup "error" = some (RVal.rstr m) ∧
    r.lookup "function_calls" = some (RVal.rcalls cs) ∧
    r.lookup "response" = none

/-- A success payload: `success` is `true` and `count` equals the length of
the `cameras` sequence. -/
def isSuccessPayload (p : Payload) : Prop :=
  p.lookup "success" = some (JVal.jbool true) ∧
  ∃ cams, p.lookup "cameras" = some (JVal.jarr cams) ∧
    p.lookup "count" = some (JVal.jnat cams.length)

/-- A handler failure payload: `success` is `false` and an error message is
present. -/
def isFailurePayload (p : Payload) : Prop :=
  p.lookup "success" = some (JVal.jbool false) ∧
  ∃ m, p.lookup "error" = some (JVal.jstr m)

/-- `p` echoes every input field of the argument mapping `args`. -/
def echoesArgs (args : Args) (p : Payload) : Prop :=
  ∀ k v, args.lookup k = some v → p.lookup k = some v

/-- The tool name requested by a conversation turn, as the loop detects it:
the function call in the turn's first part, if any. -/
def requestName (c : Content) : Option String :=
  match c.parts.head? with
  | some (Part.functionCall fc) => some fc.name
  | _ => none

/-- The tool name answered by a conversation turn, when the turn is a
tool-result turn as the loop builds them: role `user` with a single
`function_response` part. -/
def resultName (c : Content) : Option String :=
  match c.parts with
  | Part.functionResponse n _ :: rest =>
      match rest with
      | [] => if c.role = "user" then some n else none
      | _ :: _ => none
  | _ => none

/-- The conversation invariant: every tool-invocation request turn is
immediately followed by a tool-result turn with the same tool name, and
tool-result turns occur only immediately after a request turn with the
same name (together: exactly one matching result turn per request turn). -/
def messagesInv (ms : List Content) : Prop :=
  (∀ j name, ms[j]?.bind requestName = some name →
     ms[j + 1]?.bind resultName = some name) ∧
  (∀ j name, ms[j]?.bind resultName = some name →
     j ≠ 0 ∧ ms[j - 1]?.bind requestName = some name)

/-- An environment in which the model requests a well-formed
`get_cameras_by_zipcode` call on every turn and the camera API always
answers. -/
def alwaysToolEnv : ChatEnv := fun _ =>
  (ProviderResponse.ok
     { role := "model",
       parts := [Part.functionCall
         { name := "get_cameras_by_zipcode",
           args := [("zipcode", JVal.jstr "10036")] }] },
   HttpOutcome.success [])

/-- The loop never returns, however many iterations it is given. -/
def runsForever (env : ChatEnv) (user_message : String) (verbose : Bool) : Prop :=
  ∀ fuel, chat_with_gemini env user_message verbose fuel = none

/-! ## Helper lemmas about one loop step -/

theorem chatStep_done (env : ChatEnv) (v : Bool) (r : ResultDict) (tr : List TraceEvent) :
    chatStep env v { phase := Phase.done r, trace := tr } = { phase := Phase.done r, trace := tr } :=
  rfl

theorem iterate_done_fix (env : ChatEnv) (v : Bool) (r : ResultDict) (tr : List TraceEvent)
    (n : Nat) :
    (chatStep env v)^[n] { phase := Phase.done r, trace := tr }
      = { phase := Phase.done r, trace := tr } := by
  induction n with
  | zero => rfl
  | succ n ih => rw [Function.iterate_succ_apply, chatStep_done, ih]

/-- The result component of the registry does not depend on the verbose
flag (only the trace of prints does). -/
theorem execute_fst_indep (http : HttpOutcome) (fc : FunctionCall) (v₁ v₂ : Bool) :
    (execute_function_call http fc v₁).1 = (execute_function_call http fc v₂).1 := by
  rcases h : available_functions.lookup fc.name with _ | f <;>
    simp only [execute_function_call, h]
  by_cases hk : kwargsMatch (handlerParams f) fc.args <;> simp [hk]

/-- Master case split of one step from a running loop state: either the
turn continues (the model requested a tool call and its execution returned
a payload), extending the call list and the conversation, or the loop
returns with one of the four terminal dict shapes. -/
theorem chatStep_running_split (env : ChatEnv) (v : Bool) (i : Nat)
    (calls : List FunctionCall) (ms : List Content) (tr : List TraceEvent) :
    (continuesAt env v i = true ∧
      ∃ content http fc payload t2,
        env i = (ProviderResponse.ok content, http) ∧
        content.parts.head? = some (Part.functionCall fc) ∧
        execute_function_call http fc v = (Except.ok payload, t2) ∧
        chatStep env v { phase := Phase.running i calls ms, trace := tr }
          = { phase := Phase.running (i + 1) (calls ++ [fc])
                (ms ++ [content, mkFunctionResponseContent fc.name payload]),
              trace := tr ++ t2 }) ∨
    (continuesAt env v i = false ∧
      ∃ r tr2,
        chatStep env v { phase := Phase.running i calls ms, trace := tr }
          = { phase := Phase.done r, trace := tr2 } ∧
        terminalShape r) := by
  rcases henv : env i with ⟨resp, http⟩
  cases resp with
  | clientError m =>
    right
    refine ⟨by simp [continuesAt, henv], ?_⟩
    by_cases hrl : isRateLimitError m
    · exact ⟨rateLimitDict m calls,
        tr ++ (if v = true then [TraceEvent.errorMsg rate_limit_message, TraceEvent.errorMsg m] else []),
        by simp [chatStep, henv, hrl],
        Or.inr (Or.inl ⟨m, calls, rfl⟩)⟩
    · exact ⟨apiErrorDict m calls,
        tr ++ (if v = true then [TraceEvent.errorMsg ("Gemini API Error: " ++ m)] else []),
        by simp [chatStep, henv, hrl],
        Or.inr (Or.inr (Or.inl ⟨m, calls, rfl⟩))⟩
  | otherError m =>
    right
    exact ⟨by simp [continuesAt, henv],
      unexpectedDict m calls,
      tr ++ (if v = true then [TraceEvent.errorMsg ("Unexpected error: " ++ m)] else []),
      by simp [chatStep, henv],
      Or.inr (Or.inr (Or.inr ⟨m, calls, rfl⟩))⟩
  | ok content =>
    rcases hp : content.parts.head? with _ | part
    · right
      exact ⟨by simp [continuesAt, henv, hp],
        unexpectedDict "list index out of range" calls,
        tr ++ (if v = true then [TraceEvent.errorMsg "Unexpected error: list index out of range"] else []),
        by simp [chatStep, henv, hp],
        Or.inr (Or.inr (Or.inr ⟨_, calls, rfl⟩))⟩
    · cases part with
      | text t =>
        right
        exact ⟨by simp [continuesAt, henv, hp],
          responseDict (responseText content) calls,
          tr ++ (if v = true then [TraceEvent.geminiReply (responseText content)] else []),
          by simp [chatStep, henv, hp],
          Or.inl ⟨_, calls, rfl⟩⟩
      | functionResponse n p =>
        right
        exact ⟨by simp [continuesAt, henv, hp],
          responseDict (responseText content) calls,
          tr ++ (if v = true then [TraceEvent.geminiReply (responseText content)] else []),
          by simp [chatStep, henv, hp],
          Or.inl ⟨_, calls, rfl⟩⟩
      | functionCall fc =>
        rcases hex : execute_function_call http fc v with ⟨res, t2⟩
        cases res with
        | error e =>
          right
          refine ⟨?_, unexpectedDict (exnMsg e) (calls ++ [fc]),
            tr ++ (t2 ++ (if v = true then [TraceEvent.errorMsg ("Unexpected error: " ++ exnMsg e)] else [])),
            by simp [chatStep, henv, hp, hex],
            Or.inr (Or.inr (Or.inr ⟨_, _, rfl⟩))⟩
          simp only [continuesAt, henv, hp, hex]
        | ok payload =>
          left
          refine ⟨?_, content, http, fc, payload, t2, rfl, hp, hex,
            by simp [chatStep, henv, hp, hex]⟩
          simp only [continuesAt, henv, hp, hex]

/-! ## Helper lemmas about the iterated loop -/

/-- After `n` iterations the loop has either returned one of the four
terminal dict shapes or is about to issue provider call number `n`. -/
theorem iterate_phase_form (env : ChatEnv) (v : Bool) (msg : String) (n : Nat) :
    (∃ r tr, (chatStep env v)^[n] (initState msg v) = { phase := Phase.done r, trace := tr } ∧
       terminalShape r) ∨
    (∃ calls ms tr, (chatStep env v)^[n] (initState msg v)
       = { phase := Phase.running n calls ms, trace := tr }) := by
  induction n with
  | zero => exact Or.inr ⟨[], [mkUserContent msg], _, rfl⟩
  | succ n ih =>
    rw [Function.iterate_succ_apply']
    rcases ih with ⟨r, tr, heq, hsh⟩ | ⟨calls, ms, tr, heq⟩
    · rw [heq, chatStep_done]
      exact Or.inl ⟨r, tr, rfl, hsh⟩
    · rw [heq]
      rcases chatStep_running_split env v n calls ms tr with
        ⟨_, c, http, fc, p, t2, _, _, _, hstep⟩ | ⟨_, r, tr2, hstep, hsh⟩
      · rw [hstep]
        exact Or.inr ⟨_, _, _, rfl⟩
      · rw [hstep]
        exact Or.inl ⟨r, tr2, rfl, hsh⟩

/-- The loop has returned within `n` iterations exactly when some earlier
turn did not continue (final text, provider error, empty parts, or a tool
execution that raised). -/
theorem iterate_done_iff (env : ChatEnv) (v : Bool) (msg : String) (n : Nat) :
    (∃ r tr, (chatStep env v)^[n] (initState msg v) = { phase := Phase.done r, trace := tr })
      ↔ ∃ k, k < n ∧ continuesAt env v k = false := by
  induction n with
  | zero =>
    constructor
    · rintro ⟨r, tr, h⟩
      exact absurd (congrArg LoopState.phase h) (by simp [initState])
    · rintro ⟨k, hk, _⟩
      exact absurd hk (Nat.not_lt_zero k)
  | succ n ih =>
    constructor
    · rintro ⟨r, tr, h⟩
      rw [Function.iterate_succ_apply'] at h
      rcases iterate_phase_form env v msg n with ⟨r', tr', heq, _⟩ | ⟨calls, ms, tr', heq⟩
      · obtain ⟨k, hk, hc⟩ := ih.mp ⟨r', tr', heq⟩
        exact ⟨k, Nat.lt_succ_of_lt hk, hc⟩
      · rw [heq] at h
        rcases chatStep_running_split env v n calls ms tr' with
          ⟨_, c, http, fc, p, t2, _, _, _, hstep⟩ | ⟨hc, r2, tr2, hstep, _⟩
        · rw [hstep] at h
          exact absurd (congrArg LoopState.phase h) (by simp)
        · exact ⟨n, Nat.lt_succ_self n, hc⟩
    · rintro ⟨k, hk, hc⟩
      rcases Nat.lt_succ_iff_lt_or_eq.mp hk with hk' | rfl
      · obtain ⟨r, tr, h⟩ := ih.mpr ⟨k, hk', hc⟩
        rw [Function.iterate_succ_apply', h, chatStep_done]
        exact ⟨r, tr, rfl⟩
      · rcases iterate_phase_form env v msg k with ⟨r, tr, heq, _⟩ | ⟨calls, ms, tr, heq⟩
        · rw [Function.iterate_succ_apply', heq, chatStep_done]
          exact ⟨r, tr, rfl⟩
        · rcases chatStep_running_split env v k calls ms tr with
            ⟨hc', _⟩ | ⟨_, r, tr2, hstep, _⟩
          · rw [hc] at hc'
            exact absurd hc' (by simp)
          · rw [Function.iterate_succ_apply', heq, hstep]
            exact ⟨r, tr2, rfl⟩

/-- One step preserves equality of control states across different verbose
flags: verbose changes only the trace. -/
theorem chatStep_phase_congr (env : ChatEnv) (v₁ v₂ : Bool) (s₁ s₂ : LoopState)
    (h : s₁.phase = s₂.phase) :
    (chatStep env v₁ s₁).phase = (chatStep env v₂ s₂).phase := by
  rcases s₁ with ⟨p₁, t₁⟩
  rcases s₂ with ⟨p₂, t₂⟩
  simp only at h
  subst h
  cases p₁ with
  | done r => rfl
  | running i calls ms =>
    rcases henv : env i with ⟨resp, http⟩
    cases resp with
    | clientError m =>
      by_cases hrl : isRateLimitError m <;> simp [chatStep, henv, hrl]
    | otherError m => simp [chatStep, henv]
    | ok content =>
      rcases hp : content.parts.head? with _ | part
      · simp [chatStep, henv, hp]
      · cases part with
        | text t => simp [chatStep, henv, hp]
        | functionResponse n p => simp [chatStep, henv, hp]
        | functionCall fc =>
          rcases hex₁ : execute_function_call http fc v₁ with ⟨res₁, u₁⟩
          rcases hex₂ : execute_function_call http fc v₂ with ⟨res₂, u₂⟩
          have hres : res₁ = res₂ := by
            have := execute_fst_indep http fc v₁ v₂
            rw [hex₁, hex₂] at this
            exact this
          subst hres
          cases res₁ with
          | error e => simp [chatStep, henv, hp, hex₁, hex₂]
          | ok payload => simp [chatStep, henv, hp, hex₁, hex₂]

/-- The control state after `n` iterations does not depend on the verbose
flag. -/
theorem iterate_phase_congr (env : ChatEnv) (v₁ v₂ : Bool) (msg : String) (n : Nat) :
    ((chatStep env v₁)^[n] (initState msg v₁)).phase
      = ((chatStep env v₂)^[n] (initState msg v₂)).phase := by
  induction n with
  | zero => rfl
  | succ n ih =>
    rw [Function.iterate_succ_apply', Function.iterate_succ_apply']
    exact chatStep_phase_congr env v₁ v₂ _ _ ih

/-! ## Helper lemmas about dict lookup and keyword matching -/

/-- A successful dict lookup comes from an entry of the dict. -/
theorem lookup_mem {args : Args} {k : String} {v : JVal}
    (h : args.lookup k = some v) : (k, v) ∈ args := by
  induction args with
  | nil => simp [List.lookup] at h
  | cons kv rest ih =>
    rcases kv with ⟨k', v'⟩
    by_cases hk : k == k'
    · simp [List.lookup, hk] at h
      subst h
      have : k = k' := by simpa using hk
      subst this
      exact List.mem_cons_self _ _
    · simp [List.lookup, hk] at h
      exact List.mem_cons_of_mem _ (ih h)

/-- When the keyword expansion succeeded, every key bound in the argument
mapping is one of the handler's parameter names. -/
theorem kwargsMatch_key_mem {params : List String} {args : Args}
    (hm : kwargsMatch params args = true) {k : String} {v : JVal}
    (h : args.lookup k = some v) : k ∈ params := by
  have hmem := lookup_mem h
  have hall : args.all (fun kv => params.contains kv.1) = true := by
    simp only [kwargsMatch, Bool.and_eq_true] at hm
    exact hm.2
  have := (List.all_eq_true.mp hall) _ hmem
  simpa using this

/-! ## Helper lemmas about the conversation invariant -/

theorem messagesInv_init (msg : String) : messagesInv [mkUserContent msg] := by
  constructor
  · intro j name h
    rcases j with _ | j
    · simp [mkUserContent, requestName] at h
    · simp at h
  · intro j name h
    rcases j with _ | j
    · simp [mkUserContent, resultName] at h
    · simp at h

/-- Appending a request turn immediately followed by its matching result
turn preserves the conversation invariant. -/
theorem messagesInv_append {ms : List Content} {a b : Content} {name : String}
    (hinv : messagesInv ms)
    (hra : requestName a = some name) (hsa : resultName a = none)
    (hrb : requestName b = none) (hsb : resultName b = some name) :
    messagesInv (ms ++ [a, b]) := by
  obtain ⟨h1, h2⟩ := hinv
  constructor
  · intro j nm h
    by_cases hj : j < ms.length
    · rw [List.getElem?_append_left hj] at h
      have h' := h1 j nm h
      have hj1 : j + 1 < ms.length := by
        by_contra hge
        rw [List.getElem?_eq_none (by omega)] at h'
        simp at h'
      rw [List.getElem?_append_left hj1]
      exact h'
    · rw [List.getElem?_append_right (Nat.le_of_not_lt hj)] at h
      rcases hd : j - ms.length with _ | _ | d
      · rw [hd] at h
        simp only [List.getElem?_cons_zero, Option.some_bind] at h
        rw [hra] at h
        have hj0 : j = ms.length := by omega
        rw [List.getElem?_append_right (by omega)]
        have h1eq : j + 1 - ms.length = 1 := by omega
        rw [h1eq]
        simp only [List.getElem?_cons_succ, List.getElem?_cons_zero, Option.some_bind]
        rw [hsb]
        exact h
      · rw [hd] at h
        simp only [List.getElem?_cons_succ, List.getElem?_cons_zero, Option.some_bind] at h
        rw [hrb] at h
        simp at h
      · rw [hd] at h
        simp at h
  · intro j nm h
    by_cases hj : j < ms.length
    · rw [List.getElem?_append_left hj] at h
      obtain ⟨hj0, h'⟩ := h2 j nm h
      refine ⟨hj0, ?_⟩
      rw [List.getElem?_append_left (by omega)]
      exact h'
    · rw [List.getElem?_append_right (Nat.le_of_not_lt hj)] at h
      rcases hd : j - ms.length with _ | _ | d
      · rw [hd] at h
        simp only [List.getElem?_cons_zero, Option.some_bind] at h
        rw [hsa] at h
        simp at h
      · rw [hd] at h
        simp only [List.getElem?_cons_succ, List.getElem?_cons_zero, Option.some_bind] at h
        rw [hsb] at h
        refine ⟨by omega, ?_⟩
        rw [List.getElem?_append_right (by omega)]
        have h10 : j - 1 - ms.length = 0 := by omega
        rw [h10]
        simp only [List.getElem?_cons_zero, Option.some_bind]
        rw [hra]
        exact h
      · rw [hd] at h
        simp at h

/-- The model turn the loop appends (first part a function call) is a
request turn for the call's name and not a result turn. -/
theorem appended_model_turn_shape {content : Content} {fc : FunctionCall}
    (hp : content.parts.head? = some (Part.functionCall fc)) :
    requestName content = some fc.name ∧ resultName content = none := by
  rcases content with ⟨role, parts⟩
  cases parts with
  | nil => simp at hp
  | cons p rest =>
    simp only [List.head?_cons, Option.some.injEq] at hp
    subst hp
    exact ⟨rfl, rfl⟩

theorem result_turn_shape (name : String) (payload : Payload) :
    requestName (mkFunctionResponseContent name payload) = none ∧
    resultName (mkFunctionResponseContent name payload) = some name := by
  exact ⟨rfl, by simp [mkFunctionResponseContent, resultName]⟩

/-! ## Claims -/

/-- C3 counterexample: the claim that `execute_function_call` never raises
past the registry boundary for any argument mapping is false.  On the
registered tool `get_cameras_by_zipcode` invoked with an empty argument
mapping (missing the required `zipcode` parameter), the keyword expansion
raises a `TypeError` and no structured payload is returned. -/
theorem execute_function_call_raises_missing_arg :
    (execute_function_call (HttpOutcome.success [])
        { name := "get_cameras_by_zipcode", args := [] } true).1
      = Except.error (PyExn.typeError (kwargsErrorMsg "get_cameras_by_zipcode")) ∧
    ¬ ∃ p, (execute_function_call (HttpOutcome.success [])
        { name := "get_cameras_by_zipcode", args := [] } true).1 = Except.ok p := by
  refine ⟨rfl, ?_⟩
  rintro ⟨p, hp⟩
  have h : (execute_function_call (HttpOutcome.success [])
      { name := "get_cameras_by_zipcode", args := [] } true).1
      = Except.error (PyExn.typeError (kwargsErrorMsg "get_cameras_by_zipcode")) := rfl
  rw [h] at hp
  exact Except.noConfusion hp

/-- C3 (amended): `execute_function_call` returns a structured payload
(instead of raising) exactly when the tool name is unregistered or the
argument mapping's keys match the resolved handler's parameter names; with
missing or unexpected keys the keyword expansion raises past the registry
boundary. -/
theorem execute_function_call_ok_iff (http : HttpOutcome) (fc : FunctionCall)
    (verbose : Bool) :
    (∃ p, (execute_function_call http fc verbose).1 = Except.ok p)
      ↔ (available_functions.lookup fc.name = none ∨
          ∃ f, available_functions.lookup fc.name = some f ∧
            kwargsMatch (handlerParams f) fc.args = true) := by
  rcases h : available_functions.lookup fc.name with _ | f
  · simp [execute_function_call, h]
  · by_cases hk : kwargsMatch (handlerParams f) fc.args
    · simp [execute_function_call, h, hk]
    · constructor
      · rintro ⟨p, hp⟩
        simp [execute_function_call, h, hk] at hp
      · rintro (hnone | ⟨f', hf', hk'⟩)
        · exact Option.noConfusion hnone
        · injection hf' with hf'
          subst hf'
          exact absurd hk' hk

/-- C4: executing an invocation whose tool name matches no registered tool
does not raise: it returns the failure payload with error message
`Function <name> not found`, and from any running loop state such a turn
continues the loop, reporting that payload back to the model in a
tool-result turn. -/
theorem unknown_tool_recoverable (env : ChatEnv) (http : HttpOutcome) (name : String)
    (args : Args) (verbose : Bool)
    (h : available_functions.lookup name = none) :
    (execute_function_call http { name := name, args := args } verbose).1
      = Except.ok [("error", JVal.jstr ("Function " ++ name ++ " not found"))] ∧
    ∀ i calls messages tr content,
      env i = (ProviderResponse.ok content, http) →
      content.parts.head? = some (Part.functionCall { name := name, args := args }) →
      ∃ t2, chatStep env verbose { phase := Phase.running i calls messages, trace := tr }
        = { phase := Phase.running (i + 1) (calls ++ [{ name := name, args := args }])
              (messages ++ [content, mkFunctionResponseContent name
                [("error", JVal.jstr ("Function " ++ name ++ " not found"))]]),
            trace := tr ++ t2 } := by
  have hfst : (execute_function_call http { name := name, args := args } verbose).1
      = Except.ok [("error", JVal.jstr ("Function " ++ name ++ " not found"))] := by
    simp [execute_function_call, h]
  refine ⟨hfst, ?_⟩
  intro i calls messages tr content henv hp
  rcases hex : execute_function_call http { name := name, args := args } verbose with ⟨res, t2⟩
  have hres : res = Except.ok [("error", JVal.jstr ("Function " ++ name ++ " not found"))] := by
    rw [← hfst, hex]
  subst hres
  exact ⟨t2, by simp [chatStep, henv, hp, hex]⟩

/-- C4 witness at a concrete unregistered tool name. -/
theorem unknown_tool_recoverable_witness :
    (execute_function_call (HttpOutcome.success [])
        { name := "foo", args := [] } true).1
      = Except.ok [("error", JVal.jstr "Function foo not found")] ∧
    ∃ t2, chatStep
        (fun _ => (ProviderResponse.ok
          { role := "model", parts := [Part.functionCall { name := "foo", args := [] }] },
          HttpOutcome.success [])) true
        { phase := Phase.running 0 [] [mkUserContent "q"], trace := [] }
      = { phase := Phase.running 1 ([] ++ [{ name := "foo", args := [] }])
            ([mkUserContent "q"] ++
              [{ role := "model", parts := [Part.functionCall { name := "foo", args := [] }] },
               mkFunctionResponseContent "foo" [("error", JVal.jstr "Function foo not found")]]),
          trace := [] ++ t2 } := by
  have h := unknown_tool_recoverable
    (fun _ => (ProviderResponse.ok
      { role := "model", parts := [Part.functionCall { name := "foo", args := [] }] },
      HttpOutcome.success []))
    (HttpOutcome.success []) "foo" [] true rfl
  exact ⟨h.1, h.2 0 [] [mkUserContent "q"] [] _ rfl rfl⟩

/-- C5: a successful tool execution (the remote API answered) yields a
payload with `success = true`, the camera records, the echoed input fields
(`zipcode` for `get_cameras_by_zipcode`; `street` and `zipcode` for
`search_cameras_by_street`), and a `count` equal to the length of the
`cameras` sequence. -/
theorem success_payload_fields (cams : List JVal) (street z : JVal) :
    ((get_cameras_by_zipcode (HttpOutcome.success cams) z).lookup "success"
        = some (JVal.jbool true) ∧
      (get_cameras_by_zipcode (HttpOutcome.success cams) z).lookup "zipcode" = some z ∧
      (get_cameras_by_zipcode (HttpOutcome.success cams) z).lookup "cameras"
        = some (JVal.jarr cams) ∧
      (get_cameras_by_zipcode (HttpOutcome.success cams) z).lookup "count"
        = some (JVal.jnat cams.length)) ∧
    ((search_cameras_by_street (HttpOutcome.success cams) street z).lookup "success"
        = some (JVal.jbool true) ∧
      (search_cameras_by_street (HttpOutcome.success cams) street z).lookup "street"
        = some street ∧
      (search_cameras_by_street (HttpOutcome.success cams) street z).lookup "zipcode"
        = some z ∧
      (search_cameras_by_street (HttpOutcome.success cams) street z).lookup "cameras"
        = some (JVal.jarr cams) ∧
      (search_cameras_by_street (HttpOutcome.success cams) street z).lookup "count"
        = some (JVal.jnat cams.length)) :=
  ⟨⟨rfl, rfl, rfl, rfl⟩, ⟨rfl, rfl, rfl, rfl, rfl⟩⟩

/-- C6 counterexample: the unknown-tool failure payload does not echo the
invocation's input fields.  Invoking the unregistered tool `foo` with an
argument mapping binding `zipcode` yields a payload that contains only the
error entry and no `zipcode` entry. -/
theorem unknown_tool_payload_no_echo :
    (execute_function_call (HttpOutcome.success [])
        { name := "foo", args := [("zipcode", JVal.jstr "10036")] } true).1
      = Except.ok [("error", JVal.jstr "Function foo not found")] ∧
    ([("error", JVal.jstr "Function foo not found")] : Payload).lookup "zipcode" = none :=
  ⟨rfl, rfl⟩

/-- C6 (amended): every payload returned by `execute_function_call` is
either a handler payload — a success payload or a failure payload, in both
cases echoing every input field of the argument mapping — or the
unknown-tool payload, which carries only the error message and echoes
nothing. -/
theorem tool_result_structured (http : HttpOutcome) (fc : FunctionCall) (verbose : Bool)
    (p : Payload) (h : (execute_function_call http fc verbose).1 = Except.ok p) :
    ((isSuccessPayload p ∨ isFailurePayload p) ∧ echoesArgs fc.args p) ∨
    p = [("error", JVal.jstr ("Function " ++ fc.name ++ " not found"))] := by
  rcases hl : available_functions.lookup fc.name with _ | f
  · right
    simp [execute_function_call, hl] at h
    exact h.symm
  · by_cases hk : kwargsMatch (handlerParams f) fc.args
    · left
      simp [execute_function_call, hl, hk] at h
      subst h
      constructor
      · cases f <;> cases http
        · exact Or.inl ⟨rfl, _, rfl, rfl⟩
        · exact Or.inr ⟨rfl, _, rfl⟩
        · exact Or.inl ⟨rfl, _, rfl, rfl⟩
        · exact Or.inr ⟨rfl, _, rfl⟩
      · intro k v hkv
        have hkmem := kwargsMatch_key_mem hk hkv
        cases f with
        | getCamerasByZipcode =>
          simp [handlerParams] at hkmem
          subst hkmem
          cases http <;>
            simp [applyHandler, get_cameras_by_zipcode, argVal, hkv, List.lookup]
        | searchCamerasByStreet =>
          simp [handlerParams] at hkmem
          rcases hkmem with rfl | rfl <;> cases http <;>
            simp [applyHandler, search_cameras_by_street, argVal, hkv, List.lookup]
    · exfalso
      simp [execute_function_call, hl, hk] at h

/-- C6 witness at a concrete successful execution. -/
theorem tool_result_structured_witness :
    ((isSuccessPayload
        [("success", JVal.jbool true), ("zipcode", JVal.jstr "10036"),
         ("count", JVal.jnat 1), ("cameras", JVal.jarr [JVal.jstr "cam"])] ∨
      isFailurePayload
        [("success", JVal.jbool true), ("zipcode", JVal.jstr "10036"),
         ("count", JVal.jnat 1), ("cameras", JVal.jarr [JVal.jstr "cam"])]) ∧
      echoesArgs [("zipcode", JVal.jstr "10036")]
        [("success", JVal.jbool true), ("zipcode", JVal.jstr "10036"),
         ("count", JVal.jnat 1), ("cameras", JVal.jarr [JVal.jstr "cam"])]) ∨
    [("success", JVal.jbool true), ("zipcode", JVal.jstr "10036"),
     ("count", JVal.jnat 1), ("cameras", JVal.jarr [JVal.jstr "cam"])]
      = [("error", JVal.jstr ("Function " ++ "get_cameras_by_zipcode" ++ " not found"))] :=
  tool_result_structured (HttpOutcome.success [JVal.jstr "cam"])
    { name := "get_cameras_by_zipcode", args := [("zipcode", JVal.jstr "10036")] }
    false _ rfl

/-- C7: a provider `ClientError` carrying a rate-limit status marker
(`429`, `RESOURCE_EXHAUSTED`, or `quota` in the lowercased message) on the
first turn terminates the request with the rate-limit dict whose
tool-invocation list is empty; that dict is distinguished from the generic
provider-error dicts by carrying the fixed user-friendly message and an
`error_details` entry, which generic error dicts never have. -/
theorem rate_limit_terminal_first_turn (env : ChatEnv) (msg : String) (verbose : Bool)
    (fuel : Nat) (m : String) (http : HttpOutcome)
    (hfuel : 1 ≤ fuel)
    (henv : env 0 = (ProviderResponse.clientError m, http))
    (hrl : isRateLimitError m = true) :
    chat_with_gemini env msg verbose fuel = some (rateLimitDict m []) ∧
    (rateLimitDict m []).lookup "function_calls" = some (RVal.rcalls []) ∧
    (rateLimitDict m []).lookup "error" = some (RVal.rstr rate_limit_message) ∧
    (rateLimitDict m []).lookup "error_details" = some (RVal.rstr m) ∧
    (∀ m2 cs, (apiErrorDict m2 cs).lookup "error_details" = none ∧
      (unexpectedDict m2 cs).lookup "error_details" = none) ∧
    (∀ i calls ms tr m2 http2, env i = (ProviderResponse.clientError m2, http2) →
      isRateLimitError m2 = true →
      (chatStep env verbose { phase := Phase.running i calls ms, trace := tr }).phase
        = Phase.done (rateLimitDict m2 calls)) := by
  refine ⟨?_, rfl, rfl, rfl, fun m2 cs => ⟨rfl, rfl⟩,
    fun i calls ms tr m2 http2 henv2 hrl2 => by simp [chatStep, henv2, hrl2]⟩
  obtain ⟨n, rfl⟩ : ∃ n, fuel = n + 1 := ⟨fuel - 1, by omega⟩
  unfold chat_with_gemini
  rw [Function.iterate_succ_apply]
  rcases hs : chatStep env verbose (initState msg verbose) with ⟨ph, tr⟩
  have hph : ph = Phase.done (rateLimitDict m []) := by
    have h2 : (chatStep env verbose (initState msg verbose)).phase = ph :=
      congrArg LoopState.phase hs
    rw [← h2]
    simp [chatStep, initState, henv, hrl]
  subst hph
  rw [iterate_done_fix]

/-- C7 witness at a concrete quota-exhausted error on the first turn. -/
theorem rate_limit_terminal_first_turn_witness :
    chat_with_gemini
        (fun _ => (ProviderResponse.clientError "429 RESOURCE_EXHAUSTED: quota exceeded",
          HttpOutcome.success []))
        "hello" false 1
      = some (rateLimitDict "429 RESOURCE_EXHAUSTED: quota exceeded" []) :=
  (rate_limit_terminal_first_turn
    (fun _ => (ProviderResponse.clientError "429 RESOURCE_EXHAUSTED: quota exceeded",
      HttpOutcome.success []))
    "hello" false 1 "429 RESOURCE_EXHAUSTED: quota exceeded" (HttpOutcome.success [])
    (by decide) rfl (by decide)).1

/-- C1: whenever `chat_with_gemini` returns (it is total: every exception
raised inside the loop is converted to a terminal dict), the returned
mapping is exactly one of a final answer (response text plus the list of
tool invocations made, no error entry) or a terminal error (error message
plus the list of tool invocations made so far, no response entry) — never
both and never unstructured. -/
theorem chat_with_gemini_outcome_exclusive (env : ChatEnv) (msg : String) (verbose : Bool)
    (fuel : Nat) (r : ResultDict)
    (h : chat_with_gemini env msg verbose fuel = some r) :
    (finalAnswerShape r ∧ ¬ terminalErrorShape r) ∨
    (terminalErrorShape r ∧ ¬ finalAnswerShape r) := by
  have hshape : terminalShape r := by
    unfold chat_with_gemini at h
    rcases iterate_phase_form env verbose msg fuel with ⟨r', tr, heq, hsh⟩ | ⟨calls, ms, tr, heq⟩
    · rw [heq] at h
      simp only [Option.some.injEq] at h
      exact h ▸ hsh
    · rw [heq] at h
      exact Option.noConfusion h
  rcases hshape with ⟨t, cs, rfl⟩ | ⟨m, cs, rfl⟩ | ⟨m, cs, rfl⟩ | ⟨m, cs, rfl⟩
  · refine Or.inl ⟨⟨t, cs, rfl, rfl, rfl⟩, ?_⟩
    rintro ⟨m, cs', hm, -, -⟩
    exact Option.noConfusion hm
  · refine Or.inr ⟨⟨rate_limit_message, cs, rfl, rfl, rfl⟩, ?_⟩
    rintro ⟨t, cs', ht, -, -⟩
    exact Option.noConfusion ht
  · refine Or.inr ⟨⟨"Gemini API Error: " ++ m, cs, rfl, rfl, rfl⟩, ?_⟩
    rintro ⟨t, cs', ht, -, -⟩
    exact Option.noConfusion ht
  · refine Or.inr ⟨⟨"Unexpected error: " ++ m, cs, rfl, rfl, rfl⟩, ?_⟩
    rintro ⟨t, cs', ht, -, -⟩
    exact Option.noConfusion ht

/-- C1 witness at a concrete run returning a final answer. -/
theorem chat_with_gemini_outcome_exclusive_witness :
    (finalAnswerShape (responseDict "hi" []) ∧ ¬ terminalErrorShape (responseDict "hi" [])) ∨
    (terminalErrorShape (responseDict "hi" []) ∧ ¬ finalAnswerShape (responseDict "hi" [])) :=
  chat_with_gemini_outcome_exclusive
    (fun _ => (ProviderResponse.ok { role := "model", parts := [Part.text "hi"] },
      HttpOutcome.success []))
    "q" true 1 (responseDict "hi" []) rfl

/-- C2: in every conversation state in which the loop is about to issue the
next provider call, every tool-invocation request turn is immediately
followed by exactly one tool-result turn whose tool name equals the
requested tool's name (and result turns occur nowhere else). -/
theorem chat_messages_request_result_paired (env : ChatEnv) (verbose : Bool) (msg : String)
    (n i : Nat) (calls : List FunctionCall) (ms : List Content) (tr : List TraceEvent)
    (h : (chatStep env verbose)^[n] (initState msg verbose)
        = { phase := Phase.running i calls ms, trace := tr }) :
    messagesInv ms := by
  induction n generalizing i calls ms tr with
  | zero =>
    have h2 : (initState msg verbose).phase = Phase.running i calls ms :=
      congrArg LoopState.phase h
    simp only [initState] at h2
    injection h2 with h2i h2c h2m
    rw [← h2m]
    exact messagesInv_init msg
  | succ n ih =>
    rw [Function.iterate_succ_apply'] at h
    rcases hs : (chatStep env verbose)^[n] (initState msg verbose) with ⟨p, tr'⟩
    rw [hs] at h
    cases p with
    | done r =>
      rw [chatStep_done] at h
      have h2 : Phase.done r = Phase.running i calls ms := congrArg LoopState.phase h
      exact Phase.noConfusion h2
    | running i' calls' ms' =>
      have hinv := ih i' calls' ms' tr' hs
      rcases chatStep_running_split env verbose i' calls' ms' tr' with
        ⟨-, c, http, fc, payload, t2, henv, hp, hex, hstep⟩ | ⟨-, r, tr2, hstep, -⟩
      · rw [hstep] at h
        have h2 : Phase.running (i' + 1) (calls' ++ [fc])
            (ms' ++ [c, mkFunctionResponseContent fc.name payload])
            = Phase.running i calls ms := congrArg LoopState.phase h
        injection h2 with h2i h2c h2m
        rw [← h2m]
        obtain ⟨hra, hsa⟩ := appended_model_turn_shape hp
        obtain ⟨hrb, hsb⟩ := result_turn_shape fc.name payload
        exact messagesInv_append hinv hra hsa hrb hsb
      · rw [hstep] at h
        have h2 : Phase.done r = Phase.running i calls ms := congrArg LoopState.phase h
        exact Phase.noConfusion h2

/-- C2 witness: the conversation after one tool round trip satisfies the
pairing invariant. -/
theorem chat_messages_request_result_paired_witness :
    messagesInv [mkUserContent "q",
      { role := "model", parts := [Part.functionCall
          { name := "get_cameras_by_zipcode", args := [("zipcode", JVal.jstr "10036")] }] },
      mkFunctionResponseContent "get_cameras_by_zipcode"
        [("success", JVal.jbool true), ("zipcode", JVal.jstr "10036"),
         ("count", JVal.jnat 1), ("cameras", JVal.jarr [JVal.jstr "cam"])]] :=
  chat_messages_request_result_paired
    (fun _ => (ProviderResponse.ok
      { role := "model", parts := [Part.functionCall
          { name := "get_cameras_by_zipcode", args := [("zipcode", JVal.jstr "10036")] }] },
      HttpOutcome.success [JVal.jstr "cam"]))
    false "q" 1 1 _ _ _ rfl

/-- C8 counterexample: the source loop has no defensive turn cap.  In an
environment where the model requests a well-formed tool call on every turn,
`chat_with_gemini` does not return, however many loop iterations it is
given. -/
theorem chat_loop_runs_forever_on_constant_tool_calls :
    runsForever alwaysToolEnv "Show me all speed cameras in zipcode 10036" true := by
  intro fuel
  unfold chat_with_gemini
  rcases hs : (chatStep alwaysToolEnv true)^[fuel]
      (initState "Show me all speed cameras in zipcode 10036" true) with ⟨p, tr⟩
  cases p with
  | done r =>
    exfalso
    obtain ⟨k, -, hc⟩ := (iterate_done_iff alwaysToolEnv true
      "Show me all speed cameras in zipcode 10036" fuel).mp ⟨r, tr, hs⟩
    have ht : continuesAt alwaysToolEnv true k = true := rfl
    rw [ht] at hc
    exact Bool.noConfusion hc
  | running i calls ms => rfl

/-- C8 (amended): the loop terminates within a given number of turns
exactly when some earlier turn does not continue it — the model answers
with text (or an empty-parts response), the provider raises, or the
requested tool execution raises; with no turn cap in the code, a model
that requests a successful tool call on every turn keeps the loop running
forever. -/
theorem chat_terminates_iff (env : ChatEnv) (msg : String) (verbose : Bool) (fuel : Nat) :
    (∃ r, chat_with_gemini env msg verbose fuel = some r)
      ↔ ∃ k, k < fuel ∧ continuesAt env verbose k = false := by
  rw [← iterate_done_iff env verbose msg fuel]
  unfold chat_with_gemini
  rcases hs : (chatStep env verbose)^[fuel] (initState msg verbose) with ⟨p, tr⟩
  cases p with
  | done r =>
    exact ⟨fun _ => ⟨r, tr, rfl⟩, fun _ => ⟨r, rfl⟩⟩
  | running i calls ms =>
    constructor
    · rintro ⟨r, hr⟩
      exact Option.noConfusion hr
    · rintro ⟨r, tr', habs⟩
      have h2 : Phase.running i calls ms = Phase.done r := congrArg LoopState.phase habs
      exact Phase.noConfusion h2

/-- C9: the verbose flag is purely observational: the loop's control state
after any number of turns is the same under both flags, and the returned
outcome mapping is identical; only the trace of prints differs. -/
theorem verbose_flag_observational (env : ChatEnv) (msg : String) (fuel : Nat) :
    (∀ n, ((chatStep env true)^[n] (initState msg true)).phase
        = ((chatStep env false)^[n] (initState msg false)).phase) ∧
    chat_with_gemini env msg true fuel = chat_with_gemini env msg false fuel := by
  refine ⟨fun n => iterate_phase_congr env true false msg n, ?_⟩
  unfold chat_with_gemini
  rw [iterate_phase_congr env true false msg fuel]

/-- C10: a tool invocation detected in a model response is appended to the
tracked invocation list before it is executed; when executing the resolved
handler raises (for example a `TypeError` from keyword expansion on a
mismatched argument mapping), the terminal error outcome still lists that
failing invocation, in order, in its `function_calls` entry. -/
theorem failing_invocation_in_function_calls (env : ChatEnv) (msg : String) (verbose : Bool)
    (fuel n i : Nat) (calls : List FunctionCall) (ms : List Content) (tr : List TraceEvent)
    (content : Content) (http : HttpOutcome) (fc : FunctionCall) (e : PyExn)
    (t2 : List TraceEvent)
    (hn : (chatStep env verbose)^[n] (initState msg verbose)
        = { phase := Phase.running i calls ms, trace := tr })
    (hfuel : n < fuel)
    (henv : env i = (ProviderResponse.ok content, http))
    (hp : content.parts.head? = some (Part.functionCall fc))
    (hex : execute_function_call http fc verbose = (Except.error e, t2)) :
    chat_with_gemini env msg verbose fuel = some (unexpectedDict (exnMsg e) (calls ++ [fc])) ∧
    (unexpectedDict (exnMsg e) (calls ++ [fc])).lookup "function_calls"
      = some (RVal.rcalls (calls ++ [fc])) := by
  refine ⟨?_, rfl⟩
  obtain ⟨k, rfl⟩ : ∃ k, fuel = (n + 1) + k := ⟨fuel - (n + 1), by omega⟩
  unfold chat_with_gemini
  rw [Nat.add_comm, Function.iterate_add_apply]
  rw [Function.iterate_succ_apply', hn]
  rcases hs : chatStep env verbose { phase := Phase.running i calls ms, trace := tr }
    with ⟨ph, tr'⟩
  have hph : ph = Phase.done (unexpectedDict (exnMsg e) (calls ++ [fc])) := by
    have h2 : (chatStep env verbose { phase := Phase.running i calls ms, trace := tr }).phase
        = ph := congrArg LoopState.phase hs
    rw [← h2]
    simp [chatStep, henv, hp, hex]
  subst hph
  rw [iterate_done_fix]

/-- C10 witness: a first-turn invocation with a missing required argument
raises in the registry, and the terminal error outcome still lists it. -/
theorem failing_invocation_in_function_calls_witness :
    chat_with_gemini
        (fun _ => (ProviderResponse.ok
          { role := "model",
            parts := [Part.functionCall { name := "get_cameras_by_zipcode", args := [] }] },
          HttpOutcome.success []))
        "q" true 1
      = some (unexpectedDict (exnMsg (PyExn.typeError (kwargsErrorMsg "get_cameras_by_zipcode")))
          ([] ++ [{ name := "get_cameras_by_zipcode", args := [] }])) :=
  (failing_invocation_in_function_calls
    (fun _ => (ProviderResponse.ok
      { role := "model",
        parts := [Part.functionCall { name := "get_cameras_by_zipcode", args := [] }] },
      HttpOutcome.success []))
    "q" true 1 0 0 [] [mkUserContent "q"] [TraceEvent.userMsg "q"]
    { role := "model",
      parts := [Part.functionCall { name := "get_cameras_by_zipcode", args := [] }] }
    (HttpOutcome.success []) { name := "get_cameras_by_zipcode", args := [] }
    (PyExn.typeError (kwargsErrorMsg "get_cameras_by_zipcode"))
    [TraceEvent.functionCallDetected "get_cameras_by_zipcode" []]
    rfl (by decide) rfl rfl rfl).1

end GeminiFunctions
